import Mathlib

/-!
Shallow embedding of the trading core of `ZerodhaEMAScaneerC-`
(`src/zerodha_client.cpp`, `include/zerodha_client.h`).

C++ `double` prices are modelled by `ℚ` (exact arithmetic); the properties
verified here are about the comparison and recurrence structure of the code,
not about floating-point rounding.  C++ `std::map<std::string, T>` is modelled
by an association list with insert-or-assign and erase-by-key operations.
Network calls (order gateway, market data) are modelled as oracle parameters:
an entry-order response is `Option String` (`some orderId` on success, `none`
on any failure), and the latest fetched close price per symbol is a
`String → Option ℚ` (`none` when the candle fetch returns no data).
-/

/-- Mirrors struct `CandleData` (zerodha_client.h).  The C++ field `open` is a
Lean keyword, so it is called `open_` here. -/
structure CandleData where
  timestamp : String
  open_ : ℚ
  high : ℚ
  low : ℚ
  close : ℚ
  volume : Int
  oi : Int
  deriving DecidableEq

/-- Default-constructed `CandleData`: numeric fields zero (C++ default ctor). -/
instance : Inhabited CandleData :=
  ⟨{ timestamp := "", open_ := 0, high := 0, low := 0, close := 0, volume := 0, oi := 0 }⟩

/-- Mirrors struct `TradeSetting` (zerodha_client.h). -/
structure TradeSetting where
  symbol : String
  quantity : Int
  timeframe : String
  ema_period : Int
  deriving DecidableEq

/-- Mirrors struct `LastThreeCandles` (zerodha_client.h): the last, second-last
and third-last candle of a series together with their EMA values. -/
structure LastThreeCandles where
  last_open : ℚ
  last_high : ℚ
  last_low : ℚ
  last_close : ℚ
  last_ema : ℚ
  second_open : ℚ
  second_high : ℚ
  second_low : ℚ
  second_close : ℚ
  second_ema : ℚ
  third_open : ℚ
  third_high : ℚ
  third_low : ℚ
  third_close : ℚ
  third_ema : ℚ
  deriving DecidableEq

/-- Default-constructed `LastThreeCandles`: every field is `0` (C++ default
constructor in zerodha_client.h lines 60-62). -/
def zeroSnapshot : LastThreeCandles :=
  { last_open := 0, last_high := 0, last_low := 0, last_close := 0, last_ema := 0
    second_open := 0, second_high := 0, second_low := 0, second_close := 0, second_ema := 0
    third_open := 0, third_high := 0, third_low := 0, third_close := 0, third_ema := 0 }

/-- Mirrors struct `TradeSignal` (zerodha_client.h). -/
structure TradeSignal where
  symbol : String
  action : String
  entry_price : ℚ
  stop_loss : ℚ
  target : ℚ
  quantity : Int
  deriving DecidableEq

/-- Mirrors struct `ActivePosition` (zerodha_client.h).  The two protective
order-id fields are never assigned by the source, so they stay `""`. -/
structure ActivePosition where
  symbol : String
  entry_order_id : String
  stop_loss_order_id : String
  target_order_id : String
  action : String
  entry_price : ℚ
  stop_loss : ℚ
  target : ℚ
  quantity : Int
  stop_loss_placed : Bool
  target_placed : Bool
  deriving DecidableEq

/-- Default-constructed `ActivePosition` (C++ default ctor, zerodha_client.h
lines 91-92). -/
instance : Inhabited ActivePosition :=
  ⟨{ symbol := "", entry_order_id := "", stop_loss_order_id := "", target_order_id := ""
     action := "", entry_price := 0, stop_loss := 0, target := 0, quantity := 0
     stop_loss_placed := false, target_placed := false }⟩

/-- Helper for `calculateEMA`: the loop at zerodha_client.cpp lines 558-561.
`m` is the multiplier, `prev` the previously pushed EMA value. -/
def emaStep (m : ℚ) (prev : ℚ) : List ℚ → List ℚ
  | [] => []
  | p :: rest => (p * m + prev * (1 - m)) :: emaStep m (p * m + prev * (1 - m)) rest

/-- Mirrors `ZerodhaClient::calculateEMA` (zerodha_client.cpp lines 545-564):
returns `[]` for empty input or `period ≤ 0`; otherwise seeds with the first
price and applies `ema[i] = price[i]*m + ema[i-1]*(1-m)` with
`m = 2/(period+1)`. -/
def calculateEMA (prices : List ℚ) (period : Int) : List ℚ :=
  match prices with
  | [] => []
  | p :: rest =>
    if period ≤ 0 then []
    else p :: emaStep (2 / ((period : ℚ) + 1)) p rest

lemma emaStep_length (m prev : ℚ) (rest : List ℚ) :
    (emaStep m prev rest).length = rest.length := by
  induction rest generalizing prev with
  | nil => rfl
  | cons p t ih => simp [emaStep, ih]

lemma emaStep_getD (m : ℚ) (rest : List ℚ) :
    ∀ prev i, i < rest.length →
      (prev :: emaStep m prev rest).getD (i + 1) 0 =
        rest.getD i 0 * m + (prev :: emaStep m prev rest).getD i 0 * (1 - m) := by
  induction rest with
  | nil => intro prev i h; simp at h
  | cons p t ih =>
    intro prev i h
    cases i with
    | zero => simp [emaStep]
    | succ j =>
      have hj : j < t.length := by simpa using h
      simpa [emaStep] using ih (p * m + prev * (1 - m)) j hj

lemma emaStep_one (prev : ℚ) (rest : List ℚ) : emaStep 1 prev rest = rest := by
  induction rest generalizing prev with
  | nil => rfl
  | cons p t ih => simp [emaStep, ih]

/-- C4: the EMA calculator produces an output of the same length as a nonempty
input when `period > 0`, seeded with the first price and following the
recurrence `ema[i] = price[i]*m + ema[i-1]*(1-m)` with `m = 2/(period+1)`;
for empty input or `period ≤ 0` it returns `[]`; and for `period = 1` it
returns the input unchanged. -/
theorem ema_calculator_contract (prices : List ℚ) (period : Int) :
    (prices ≠ [] → 0 < period →
      (calculateEMA prices period).length = prices.length
      ∧ (calculateEMA prices period).getD 0 0 = prices.getD 0 0
      ∧ ∀ i, i + 1 < prices.length →
          (calculateEMA prices period).getD (i + 1) 0 =
            prices.getD (i + 1) 0 * (2 / ((period : ℚ) + 1))
              + (calculateEMA prices period).getD i 0 * (1 - 2 / ((period : ℚ) + 1)))
    ∧ ((prices = [] ∨ period ≤ 0) → calculateEMA prices period = [])
    ∧ (period = 1 → calculateEMA prices period = prices) := by
  refine ⟨?_, ?_, ?_⟩
  · intro hne hpos
    match prices with
    | [] => exact absurd rfl hne
    | p :: rest =>
      have hnot : ¬ period ≤ 0 := by omega
      refine ⟨?_, ?_, ?_⟩
      · simp [calculateEMA, hnot, emaStep_length]
      · simp [calculateEMA, hnot]
      · intro i hi
        have hi2 : i < rest.length := by simpa using hi
        simpa [calculateEMA, hnot] using
          emaStep_getD (2 / ((period : ℚ) + 1)) rest p i hi2
  · rintro (rfl | hle)
    · rfl
    · match prices with
      | [] => rfl
      | p :: rest => simp [calculateEMA, hle]
  · rintro rfl
    match prices with
    | [] => rfl
    | p :: rest =>
      have h1 : ((2 : ℚ) / (1 + 1)) = 1 := by norm_num
      simp [calculateEMA, h1, emaStep_one]

/-- Witness for C4 at the spec example `EMA([10,12,14], 2)`. -/
theorem ema_calculator_contract_witness :
    ([10, 12, 14] : List ℚ) ≠ [] ∧ (0 : Int) < 2
    ∧ (calculateEMA [10, 12, 14] 2).length = ([10, 12, 14] : List ℚ).length :=
  ⟨by simp, by norm_num,
    ((ema_calculator_contract [10, 12, 14] 2).1 (by simp) (by norm_num)).1⟩

/-- Mirrors `ZerodhaClient::getLastThreeCandles` (zerodha_client.cpp lines
692-778): when both series have length at least 3, fill the snapshot from the
indices `size-3`, `size-2`, `size-1` (indices computed from `candles.size()`,
the EMA list read at the same indices); otherwise the default-constructed,
all-zero snapshot is returned. -/
def getLastThreeCandles (candles : List CandleData) (ema : List ℚ) : LastThreeCandles :=
  if 3 ≤ candles.length ∧ 3 ≤ ema.length then
    let last_idx := candles.length - 1
    let second_idx := candles.length - 2
    let third_idx := candles.length - 3
    { last_open := (candles.getD last_idx default).open_
      last_high := (candles.getD last_idx default).high
      last_low := (candles.getD last_idx default).low
      last_close := (candles.getD last_idx default).close
      last_ema := ema.getD last_idx 0
      second_open := (candles.getD second_idx default).open_
      second_high := (candles.getD second_idx default).high
      second_low := (candles.getD second_idx default).low
      second_close := (candles.getD second_idx default).close
      second_ema := ema.getD second_idx 0
      third_open := (candles.getD third_idx default).open_
      third_high := (candles.getD third_idx default).high
      third_low := (candles.getD third_idx default).low
      third_close := (candles.getD third_idx default).close
      third_ema := ema.getD third_idx 0 }
  else zeroSnapshot

lemma getD_append_three_left {α : Type} [Inhabited α] (xs : List α) (a b c : α) :
    (xs ++ [a, b, c]).getD xs.length default = a := by
  rw [List.getD_append_right xs [a, b, c] default xs.length le_rfl]
  simp

lemma getD_append_three_mid {α : Type} [Inhabited α] (xs : List α) (a b c : α) :
    (xs ++ [a, b, c]).getD (xs.length + 1) default = b := by
  rw [List.getD_append_right xs [a, b, c] default (xs.length + 1) (by omega)]
  simp

lemma getD_append_three_right {α : Type} [Inhabited α] (xs : List α) (a b c : α) :
    (xs ++ [a, b, c]).getD (xs.length + 2) default = c := by
  rw [List.getD_append_right xs [a, b, c] default (xs.length + 2) (by omega)]
  simp

lemma getD_append_three_left_q (xs : List ℚ) (a b c : ℚ) :
    (xs ++ [a, b, c]).getD xs.length 0 = a := by
  rw [List.getD_append_right xs [a, b, c] 0 xs.length le_rfl]
  simp

lemma getD_append_three_mid_q (xs : List ℚ) (a b c : ℚ) :
    (xs ++ [a, b, c]).getD (xs.length + 1) 0 = b := by
  rw [List.getD_append_right xs [a, b, c] 0 (xs.length + 1) (by omega)]
  simp

lemma getD_append_three_right_q (xs : List ℚ) (a b c : ℚ) :
    (xs ++ [a, b, c]).getD (xs.length + 2) 0 = c := by
  rw [List.getD_append_right xs [a, b, c] 0 (xs.length + 2) (by omega)]
  simp

/-- C5: on an aligned pair of series ending in the three candles `a, b, c`
with EMA values `x, y, z`, the window view returns exactly those three most
recent entries (so with exactly 3 candles: third = index 0, second = index 1,
last = index 2); with fewer than 3 aligned points it returns the
all-zero default snapshot instead of partial data. -/
theorem candle_window_view_contract (xs : List CandleData) (a b c : CandleData)
    (es : List ℚ) (x y z : ℚ) (h : es.length = xs.length) :
    getLastThreeCandles (xs ++ [a, b, c]) (es ++ [x, y, z]) =
      { last_open := c.open_, last_high := c.high, last_low := c.low
        last_close := c.close, last_ema := z
        second_open := b.open_, second_high := b.high, second_low := b.low
        second_close := b.close, second_ema := y
        third_open := a.open_, third_high := a.high, third_low := a.low
        third_close := a.close, third_ema := x }
    ∧ ∀ (cs : List CandleData) (es2 : List ℚ),
        cs.length < 3 ∨ es2.length < 3 → getLastThreeCandles cs es2 = zeroSnapshot := by
  constructor
  · have hlen : (xs ++ [a, b, c]).length = xs.length + 3 := by simp
    have helen : (es ++ [x, y, z]).length = xs.length + 3 := by simp [h]
    have hcond : 3 ≤ (xs ++ [a, b, c]).length ∧ 3 ≤ (es ++ [x, y, z]).length := by
      constructor <;> simp [hlen, helen]
    rw [getLastThreeCandles, if_pos hcond]
    have h1 : (xs ++ [a, b, c]).length - 1 = xs.length + 2 := by simp
    have h2 : (xs ++ [a, b, c]).length - 2 = xs.length + 1 := by simp
    have h3 : (xs ++ [a, b, c]).length - 3 = xs.length := by simp
    have hx : (es ++ [x, y, z]) = (es ++ [x, y, z]) := rfl
    simp only [h1, h2, h3]
    have e1 : (es ++ [x, y, z]).getD (xs.length + 2) 0 = z := by
      rw [← h]; exact getD_append_three_right_q es x y z
    have e2 : (es ++ [x, y, z]).getD (xs.length + 1) 0 = y := by
      rw [← h]; exact getD_append_three_mid_q es x y z
    have e3 : (es ++ [x, y, z]).getD xs.length 0 = x := by
      rw [← h]; exact getD_append_three_left_q es x y z
    rw [getD_append_three_right xs a b c, getD_append_three_mid xs a b c,
      getD_append_three_left xs a b c, e1, e2, e3]
  · intro cs es2 hlt
    rw [getLastThreeCandles, if_neg]
    omega

/-- Witness for C5 at a concrete aligned pair of length exactly 3. -/
theorem candle_window_view_contract_witness :
    ([] : List ℚ).length = ([] : List CandleData).length
    ∧ getLastThreeCandles
        [{ timestamp := "t1", open_ := 1, high := 2, low := 0, close := 2, volume := 0, oi := 0 },
         { timestamp := "t2", open_ := 2, high := 3, low := 1, close := 3, volume := 0, oi := 0 },
         { timestamp := "t3", open_ := 3, high := 4, low := 2, close := 4, volume := 0, oi := 0 }]
        [10, 11, 12] =
      { last_open := 3, last_high := 4, last_low := 2, last_close := 4, last_ema := 12
        second_open := 2, second_high := 3, second_low := 1, second_close := 3, second_ema := 11
        third_open := 1, third_high := 2, third_low := 0, third_close := 2, third_ema := 10 } :=
  ⟨rfl,
    (candle_window_view_contract []
      { timestamp := "t1", open_ := 1, high := 2, low := 0, close := 2, volume := 0, oi := 0 }
      { timestamp := "t2", open_ := 2, high := 3, low := 1, close := 3, volume := 0, oi := 0 }
      { timestamp := "t3", open_ := 3, high := 4, low := 2, close := 4, volume := 0, oi := 0 }
      [] 10 11 12 rfl).1⟩

/-- The six BUY conditions of `ZerodhaClient::analyzeStrategy`
(zerodha_client.cpp lines 787-793); the `second_close > third_close` clause is
commented out in the source and therefore absent here. -/
def buyCond (d : LastThreeCandles) : Prop :=
  d.third_open < d.third_close ∧ d.second_open < d.second_close
  ∧ d.second_close > d.second_ema ∧ d.third_close > d.third_ema
  ∧ d.last_close > d.last_ema ∧ d.last_close > d.second_high

/-- The six SELL conditions of `ZerodhaClient::analyzeStrategy`
(zerodha_client.cpp lines 806-812). -/
def sellCond (d : LastThreeCandles) : Prop :=
  d.third_open > d.third_close ∧ d.second_open > d.second_close
  ∧ d.second_close < d.second_ema ∧ d.third_close < d.third_ema
  ∧ d.last_close < d.last_ema ∧ d.last_close < d.second_low

instance (d : LastThreeCandles) : Decidable (buyCond d) := by
  unfold buyCond; infer_instance

instance (d : LastThreeCandles) : Decidable (sellCond d) := by
  unfold sellCond; infer_instance

/-- Mirrors `ZerodhaClient::analyzeStrategy` (zerodha_client.cpp lines
780-825): quantity is hardcoded to 1 (line 783, "Default quantity"); the BUY
branch sets entry = last close, stop loss = min of second and third lows,
target = entry + 2*(entry - stop); the SELL branch mirrors it. -/
def analyzeStrategy (symbol : String) (d : LastThreeCandles) : TradeSignal :=
  let base : TradeSignal :=
    { symbol := symbol, action := "", entry_price := 0, stop_loss := 0, target := 0, quantity := 1 }
  if buyCond d then
    let sl := min d.second_low d.third_low
    { base with
        action := "BUY", entry_price := d.last_close, stop_loss := sl,
        target := d.last_close + 2 * (d.last_close - sl) }
  else if sellCond d then
    let sl := max d.second_high d.third_high
    { base with
        action := "SELL", entry_price := d.last_close, stop_loss := sl,
        target := d.last_close - 2 * (sl - d.last_close) }
  else base

lemma buy_sell_not_both (d : LastThreeCandles) : buyCond d → ¬ sellCond d := by
  intro hb hs
  exact absurd hb.1 (lt_asymm hs.1)

/-- C2: the signal generator returns a BUY signal with the stated levels
exactly when the six BUY conditions hold, a SELL signal with the mirrored
levels exactly when the six SELL conditions hold, and otherwise leaves the
action empty. -/
theorem signal_generator_contract (sym : String) (d : LastThreeCandles) :
    (buyCond d → analyzeStrategy sym d =
      { symbol := sym, action := "BUY", entry_price := d.last_close,
        stop_loss := min d.second_low d.third_low,
        target := d.last_close + 2 * (d.last_close - min d.second_low d.third_low),
        quantity := 1 })
    ∧ (sellCond d → analyzeStrategy sym d =
      { symbol := sym, action := "SELL", entry_price := d.last_close,
        stop_loss := max d.second_high d.third_high,
        target := d.last_close - 2 * (max d.second_high d.third_high - d.last_close),
        quantity := 1 })
    ∧ (¬ buyCond d → ¬ sellCond d → analyzeStrategy sym d =
      { symbol := sym, action := "", entry_price := 0, stop_loss := 0, target := 0, quantity := 1 })
    ∧ ((analyzeStrategy sym d).action = "BUY" ↔ buyCond d)
    ∧ ((analyzeStrategy sym d).action = "SELL" ↔ sellCond d) := by
  refine ⟨?_, ?_, ?_, ?_, ?_⟩
  · intro hb; simp [analyzeStrategy, hb]
  · intro hs
    have hnb : ¬ buyCond d := fun hb => buy_sell_not_both d hb hs
    simp [analyzeStrategy, hnb, hs]
  · intro hnb hns; simp [analyzeStrategy, hnb, hns]
  · constructor
    · intro ha
      by_contra hnb
      by_cases hs : sellCond d
      · simp [analyzeStrategy, hnb, hs] at ha
      · simp [analyzeStrategy, hnb, hs] at ha
    · intro hb; simp [analyzeStrategy, hb]
  · constructor
    · intro ha
      by_cases hb : buyCond d
      · simp [analyzeStrategy, hb] at ha
      · by_contra hns
        simp [analyzeStrategy, hb, hns] at ha
    · intro hs
      have hnb : ¬ buyCond d := fun hb => buy_sell_not_both d hb hs
      simp [analyzeStrategy, hnb, hs]

/-- The spec section 8 example snapshot: rising third and second candles above
their EMAs, last close above last EMA and above the second high.  Fields the
example leaves unspecified get harmless values. -/
def exSnapBuy : LastThreeCandles :=
  { last_open := 14, last_high := 15, last_low := 14, last_close := 15, last_ema := 13
    second_open := 12, second_high := 14.5, second_low := 11.5, second_close := 14, second_ema := 12
    third_open := 10, third_high := 12, third_low := 10, third_close := 12, third_ema := 11 }

lemma exSnapBuy_buyCond : buyCond exSnapBuy := by
  refine ⟨?_, ?_, ?_, ?_, ?_, ?_⟩ <;> norm_num [exSnapBuy]

/-- Witness for C2 at the spec section 8 example (entry 15, stop 10, target 25). -/
theorem signal_generator_contract_witness :
    buyCond exSnapBuy
    ∧ analyzeStrategy "RELIANCE" exSnapBuy =
      { symbol := "RELIANCE", action := "BUY", entry_price := 15,
        stop_loss := min (11.5 : ℚ) 10,
        target := 15 + 2 * (15 - min (11.5 : ℚ) 10), quantity := 1 } :=
  ⟨exSnapBuy_buyCond,
    (signal_generator_contract "RELIANCE" exSnapBuy).1 exSnapBuy_buyCond⟩

/-- C6: no snapshot satisfies both the BUY and the SELL condition set, so at
most one branch of `analyzeStrategy` can fire. -/
theorem buy_sell_mutually_exclusive (d : LastThreeCandles) :
    buyCond d → ¬ sellCond d :=
  buy_sell_not_both d

/-- Witness for C6 at a concrete snapshot satisfying the BUY conditions. -/
theorem buy_sell_mutually_exclusive_witness :
    buyCond exSnapBuy ∧ ¬ sellCond exSnapBuy :=
  ⟨exSnapBuy_buyCond, buy_sell_mutually_exclusive exSnapBuy exSnapBuy_buyCond⟩

/-- Counterexample to C8: configure symbol "X" with quantity 5; the signal the
generator produces for "X" carries quantity 1, not 5 — `analyzeStrategy`
hardcodes `signal.quantity = 1` (zerodha_client.cpp line 783) and never reads
the `TradeSetting`. -/
theorem signal_quantity_counterexample :
    (analyzeStrategy "X" exSnapBuy).action = "BUY"
    ∧ (TradeSetting.mk "X" 5 "5minute" 20).quantity = 5
    ∧ (analyzeStrategy "X" exSnapBuy).quantity ≠ (TradeSetting.mk "X" 5 "5minute" 20).quantity := by
  refine ⟨?_, rfl, ?_⟩
  · simp [analyzeStrategy, exSnapBuy_buyCond]
  · simp [analyzeStrategy, exSnapBuy_buyCond]

/-- C8 amended: every signal the generator produces has quantity 1, a
hardcoded default; the matching trade setting quantity is never consulted. -/
theorem signal_quantity_is_constant_one (sym : String) (d : LastThreeCandles) :
    (analyzeStrategy sym d).quantity = 1 := by
  unfold analyzeStrategy
  split_ifs <;> rfl

/-- The active-position map `active_positions_` (a `std::map<std::string,
ActivePosition>`), modelled as an association list. -/
abbrev PosMap : Type := List (String × ActivePosition)

/-- Mirrors `active_positions_.find(symbol)` (used by `hasActivePosition`,
zerodha_client.cpp lines 1117-1119). -/
def mapLookup (m : PosMap) (s : String) : Option ActivePosition :=
  match m with
  | [] => none
  | e :: rest => if e.1 = s then some e.2 else mapLookup rest s

/-- Mirrors `active_positions_[symbol] = position`: assign in place when the
key is present, otherwise insert. -/
def mapInsert (m : PosMap) (s : String) (v : ActivePosition) : PosMap :=
  match m with
  | [] => [(s, v)]
  | e :: rest => if e.1 = s then (s, v) :: rest else e :: mapInsert rest s v

/-- Mirrors `active_positions_.erase(symbol)` (`removeActivePosition`,
zerodha_client.cpp lines 1121-1126). -/
def mapErase (m : PosMap) (s : String) : PosMap :=
  match m with
  | [] => []
  | e :: rest => if e.1 = s then mapErase rest s else e :: mapErase rest s

/-- Number of entries for a given symbol: the per-symbol position count of C1. -/
def countKey (s : String) : PosMap → Nat
  | [] => 0
  | e :: rest => (if e.1 = s then 1 else 0) + countKey s rest

lemma countKey_insert_ne (m : PosMap) (k s : String) (v : ActivePosition) (h : k ≠ s) :
    countKey s (mapInsert m k v) = countKey s m := by
  induction m with
  | nil => simp [mapInsert, countKey, h]
  | cons e rest ih =>
    by_cases he : e.1 = k
    · simp [mapInsert, he, countKey]
    · simp [mapInsert, he, countKey, ih]

lemma countKey_insert_self (m : PosMap) (s : String) (v : ActivePosition) :
    countKey s (mapInsert m s v) = if countKey s m = 0 then 1 else countKey s m := by
  induction m with
  | nil => simp [mapInsert, countKey]
  | cons e rest ih =>
    by_cases he : e.1 = s
    · have h1 : mapInsert (e :: rest) s v = (s, v) :: rest := by simp [mapInsert, he]
      have h2 : countKey s ((s, v) :: rest) = 1 + countKey s rest := by simp [countKey]
      have h3 : countKey s (e :: rest) = 1 + countKey s rest := by simp [countKey, he]
      rw [h1, h2, h3, if_neg (by omega)]
    · simp [mapInsert, he, countKey, ih]

lemma countKey_insert_le_one (m : PosMap) (k s : String) (v : ActivePosition)
    (h : countKey s m ≤ 1) : countKey s (mapInsert m k v) ≤ 1 := by
  by_cases hk : k = s
  · subst hk
    rw [countKey_insert_self]
    split <;> omega
  · rw [countKey_insert_ne m k s v hk]
    exact h

lemma countKey_erase_le (m : PosMap) (k s : String) :
    countKey s (mapErase m k) ≤ countKey s m := by
  induction m with
  | nil => simp [mapErase]
  | cons e rest ih =>
    by_cases he : e.1 = k
    · simp only [mapErase, if_pos he, countKey]
      omega
    · simp only [mapErase, if_neg he, countKey]
      omega

lemma countKey_foldl_erase_le (ks : List String) (m : PosMap) (s : String) :
    countKey s (ks.foldl mapErase m) ≤ countKey s m := by
  induction ks generalizing m with
  | nil => simp
  | cons k t ih =>
    calc countKey s (t.foldl mapErase (mapErase m k)) ≤ countKey s (mapErase m k) := ih _
    _ ≤ countKey s m := countKey_erase_le m k s

lemma mapLookup_erase_self (m : PosMap) (s : String) :
    mapLookup (mapErase m s) s = none := by
  induction m with
  | nil => rfl
  | cons e rest ih =>
    by_cases he : e.1 = s
    · simpa [mapErase, he] using ih
    · simp [mapErase, he, mapLookup, ih]

lemma mapLookup_erase_none (m : PosMap) (s k : String) (h : mapLookup m s = none) :
    mapLookup (mapErase m k) s = none := by
  induction m with
  | nil => rfl
  | cons e rest ih =>
    by_cases he1 : e.1 = s
    · simp [mapLookup, he1] at h
    · simp only [mapLookup, if_neg he1] at h
      by_cases he2 : e.1 = k
      · simp [mapErase, he2, ih h]
      · simp [mapErase, he2, mapLookup, he1, ih h]

lemma mapLookup_foldl_erase_none (ks : List String) (m : PosMap) (s : String)
    (h : mapLookup m s = none) : mapLookup (ks.foldl mapErase m) s = none := by
  induction ks generalizing m with
  | nil => simpa
  | cons k t ih => exact ih (mapErase m k) (mapLookup_erase_none m s k h)

lemma mapLookup_foldl_erase_mem (ks : List String) (m : PosMap) (s : String)
    (h : s ∈ ks) : mapLookup (ks.foldl mapErase m) s = none := by
  induction ks generalizing m with
  | nil => simp at h
  | cons k t ih =>
    rcases List.mem_cons.mp h with rfl | ht
    · exact mapLookup_foldl_erase_none t (mapErase m s) s (mapLookup_erase_self m s)
    · exact ih (mapErase m k) ht

/-- The outcome of an exit evaluation in `checkPositionStatus`. -/
inductive ExitKind where
  | stopLossHit
  | targetHit
  deriving DecidableEq

/-- The exit decision chain of `ZerodhaClient::checkPositionStatus`
(zerodha_client.cpp lines 1209-1230): an if/else-if cascade, so the stop-loss
comparison for the position side is evaluated before the target comparison. -/
def checkExit (position : ActivePosition) (current_price : ℚ) : Option ExitKind :=
  if position.action = "BUY" ∧ current_price ≤ position.stop_loss then
    some ExitKind.stopLossHit
  else if position.action = "SELL" ∧ current_price ≥ position.stop_loss then
    some ExitKind.stopLossHit
  else if position.action = "BUY" ∧ current_price ≥ position.target then
    some ExitKind.targetHit
  else if position.action = "SELL" ∧ current_price ≤ position.target then
    some ExitKind.targetHit
  else none

/-- Mirrors `ZerodhaClient::checkPositionStatus` (zerodha_client.cpp lines
1187-1238): for every active position fetch the latest close (`price`, `none`
when the candle fetch comes back empty — then the position is skipped), log a
hit event per fired exit, collect those symbols and erase them afterwards.
Returns (new map, emitted hit events in iteration order). -/
def checkPositionStatus (m : PosMap) (price : String → Option ℚ) :
    PosMap × List (String × ExitKind) :=
  let hits := m.filterMap (fun e =>
    match price e.1 with
    | none => none
    | some p => (checkExit e.2 p).map (fun k => (e.1, k)))
  ((hits.map Prod.fst).foldl mapErase m, hits)

/-- Kind of an order request sent to the gateway. -/
inductive OrderKind where
  | entryOrder
  | stopLossOrder
  | targetOrder
  deriving DecidableEq

/-- An order request submitted to the order gateway
(`POST https://api.kite.trade/orders/regular`). -/
structure Submission where
  symbol : String
  kind : OrderKind
  transaction : String
  deriving DecidableEq

/-- Mirrors `ZerodhaClient::addActivePosition` (zerodha_client.cpp lines
1101-1115). -/
def addActivePosition (m : PosMap) (symbol entry_order_id : String)
    (signal : TradeSignal) : PosMap :=
  mapInsert m symbol
    { symbol := symbol, entry_order_id := entry_order_id,
      stop_loss_order_id := "", target_order_id := "",
      action := signal.action, entry_price := signal.entry_price,
      stop_loss := signal.stop_loss, target := signal.target,
      quantity := signal.quantity, stop_loss_placed := false, target_placed := false }

/-- Mirrors `active_positions_[symbol].stop_loss_placed = true`
(zerodha_client.cpp line 876); `operator[]` default-constructs when absent. -/
def setStopLossPlaced (m : PosMap) (s : String) : PosMap :=
  mapInsert m s { ((mapLookup m s).getD default) with stop_loss_placed := true }

/-- Mirrors `active_positions_[symbol].target_placed = true`
(zerodha_client.cpp line 885). -/
def setTargetPlaced (m : PosMap) (s : String) : PosMap :=
  mapInsert m s { ((mapLookup m s).getD default) with target_placed := true }

/-- Mirrors `ZerodhaClient::placeOrder` (zerodha_client.cpp lines 827-904).
`entryResp` is the gateway's answer to the entry order (`some orderId` when
HTTP 200 with status success, `none` on any failure); `slOk` and `tgtOk` are
the outcomes of the protective stop-loss and target order placements.
Returns (success flag, new position map, submitted order requests). -/
def placeOrder (m : PosMap) (signal : TradeSignal) (entryResp : Option String)
    (slOk tgtOk : Bool) : Bool × PosMap × List Submission :=
  if signal.action = "" then (false, m, [])
  else
    let entryTx : String :=
      if signal.action = "BUY" ∨ signal.action = "BUY_STOPLOSS" ∨ signal.action = "SELL_TARGET"
      then "BUY" else "SELL"
    let protTx : String := if signal.action = "BUY" then "SELL" else "BUY"
    let entrySub : Submission :=
      { symbol := signal.symbol, kind := OrderKind.entryOrder, transaction := entryTx }
    match entryResp with
    | none => (false, m, [entrySub])
    | some oid =>
      let m1 := addActivePosition m signal.symbol oid signal
      let m2 := if slOk then setStopLossPlaced m1 signal.symbol else m1
      let m3 := if tgtOk then setTargetPlaced m2 signal.symbol else m2
      (true, m3,
        [entrySub,
         { symbol := signal.symbol, kind := OrderKind.stopLossOrder, transaction := protTx },
         { symbol := signal.symbol, kind := OrderKind.targetOrder, transaction := protTx }])

/-- The per-symbol body of `ZerodhaClient::runTradingLoop` (zerodha_client.cpp
lines 932-984): skip when the symbol already has an active position; with at
least 3 candles compute the EMA series over the closes, take the last-three
window, run the strategy, and place the order when a signal fired.  Returns
(new position map, submitted order requests). -/
def processSymbol (m : PosMap) (symbol : String) (candles : List CandleData)
    (ema_period : Int) (entryResp : Option String) (slOk tgtOk : Bool) :
    PosMap × List Submission :=
  if (mapLookup m symbol).isSome then (m, [])
  else if 3 ≤ candles.length then
    let close_prices := candles.map (fun c => c.close)
    let ema_values := calculateEMA close_prices ema_period
    let last_three := getLastThreeCandles candles ema_values
    let signal := analyzeStrategy symbol last_three
    if signal.action ≠ "" then
      let r := placeOrder m signal entryResp slOk tgtOk
      (r.2.1, r.2.2)
    else (m, [])
  else (m, [])

/-- One step of the trading loop: either the position-status sweep or the
processing of one symbol. -/
inductive LoopStep where
  | checkStep (price : String → Option ℚ)
  | symStep (symbol : String) (candles : List CandleData) (ema_period : Int)
      (entryResp : Option String) (slOk tgtOk : Bool)

/-- Effect of one loop step on the active-position map. -/
def applyStep (m : PosMap) : LoopStep → PosMap
  | LoopStep.checkStep price => (checkPositionStatus m price).1
  | LoopStep.symStep symbol candles ema_period entryResp slOk tgtOk =>
      (processSymbol m symbol candles ema_period entryResp slOk tgtOk).1

/-- Run a sequence of trading-loop steps from the empty active-position map. -/
def runSteps (steps : List LoopStep) : PosMap :=
  steps.foldl applyStep []

lemma countKey_setStopLossPlaced (m : PosMap) (k s : String) (h : countKey s m ≤ 1) :
    countKey s (setStopLossPlaced m k) ≤ 1 :=
  countKey_insert_le_one m k s _ h

lemma countKey_setTargetPlaced (m : PosMap) (k s : String) (h : countKey s m ≤ 1) :
    countKey s (setTargetPlaced m k) ≤ 1 :=
  countKey_insert_le_one m k s _ h

lemma countKey_placeOrder (m : PosMap) (signal : TradeSignal) (entryResp : Option String)
    (slOk tgtOk : Bool) (s : String) (h : countKey s m ≤ 1) :
    countKey s (placeOrder m signal entryResp slOk tgtOk).2.1 ≤ 1 := by
  unfold placeOrder
  by_cases ha : signal.action = ""
  · simpa [ha]
  · match entryResp with
    | none => simpa [ha]
    | some oid =>
      have h1 : countKey s (addActivePosition m signal.symbol oid signal) ≤ 1 :=
        countKey_insert_le_one m signal.symbol s _ h
      by_cases hsl : slOk <;> by_cases htg : tgtOk <;>
        simp [ha, hsl, htg, countKey_setTargetPlaced, countKey_setStopLossPlaced, h1]

lemma countKey_processSymbol (m : PosMap) (symbol : String) (candles : List CandleData)
    (ema_period : Int) (entryResp : Option String) (slOk tgtOk : Bool) (s : String)
    (h : countKey s m ≤ 1) :
    countKey s (processSymbol m symbol candles ema_period entryResp slOk tgtOk).1 ≤ 1 := by
  unfold processSymbol
  by_cases h1 : (mapLookup m symbol).isSome
  · simpa [h1]
  · by_cases h2 : 3 ≤ candles.length
    · simp only [h1, h2, Bool.false_eq_true, if_false, if_true]
      by_cases h3 : (analyzeStrategy symbol
          (getLastThreeCandles candles
            (calculateEMA (candles.map (fun c => c.close)) ema_period))).action ≠ ""
      · simpa [h3] using countKey_placeOrder m _ entryResp slOk tgtOk s h
      · simpa [h3]
    · simpa [h1, h2]

lemma countKey_checkPositionStatus (m : PosMap) (price : String → Option ℚ) (s : String)
    (h : countKey s m ≤ 1) :
    countKey s (checkPositionStatus m price).1 ≤ 1 :=
  le_trans (countKey_foldl_erase_le _ m s) h

lemma countKey_applyStep (m : PosMap) (st : LoopStep) (s : String) (h : countKey s m ≤ 1) :
    countKey s (applyStep m st) ≤ 1 := by
  cases st with
  | checkStep price => exact countKey_checkPositionStatus m price s h
  | symStep symbol candles ema_period entryResp slOk tgtOk =>
      exact countKey_processSymbol m symbol candles ema_period entryResp slOk tgtOk s h

lemma countKey_foldl_applyStep (steps : List LoopStep) (m : PosMap)
    (h : ∀ s, countKey s m ≤ 1) : ∀ s, countKey s (steps.foldl applyStep m) ≤ 1 := by
  induction steps generalizing m with
  | nil => simpa
  | cons st t ih => exact ih (applyStep m st) (fun s => countKey_applyStep m st s (h s))

lemma checkPS_events_def (m : PosMap) (price : String → Option ℚ) :
    (checkPositionStatus m price).2 = m.filterMap (fun e =>
      match price e.1 with
      | none => none
      | some p => (checkExit e.2 p).map (fun k => (e.1, k))) := rfl

lemma checkPS_hit (m : PosMap) (price : String → Option ℚ) (s : String)
    (pos : ActivePosition) (p : ℚ) (k : ExitKind)
    (hmem : (s, pos) ∈ m) (hp : price s = some p) (hk : checkExit pos p = some k) :
    (s, k) ∈ (checkPositionStatus m price).2
    ∧ mapLookup (checkPositionStatus m price).1 s = none := by
  have hev : (s, k) ∈ (checkPositionStatus m price).2 := by
    rw [checkPS_events_def]
    exact List.mem_filterMap.mpr ⟨(s, pos), hmem, by simp [hp, hk]⟩
  refine ⟨hev, ?_⟩
  have hkeys : s ∈ ((checkPositionStatus m price).2.map Prod.fst) :=
    List.mem_map.mpr ⟨(s, k), hev, rfl⟩
  have h1 : (checkPositionStatus m price).1 =
      (((checkPositionStatus m price).2).map Prod.fst).foldl mapErase m := rfl
  rw [h1]
  exact mapLookup_foldl_erase_mem _ m s hkeys

lemma checkExit_buy_sl (pos : ActivePosition) (p : ℚ)
    (ha : pos.action = "BUY") (h : p ≤ pos.stop_loss) :
    checkExit pos p = some ExitKind.stopLossHit := by
  simp [checkExit, ha, h]

lemma checkExit_buy_target (pos : ActivePosition) (p : ℚ)
    (ha : pos.action = "BUY") (hlt : pos.stop_loss < p) (h : pos.target ≤ p) :
    checkExit pos p = some ExitKind.targetHit := by
  simp [checkExit, ha, h, not_le.mpr hlt]

lemma checkExit_sell_sl (pos : ActivePosition) (p : ℚ)
    (ha : pos.action = "SELL") (h : pos.stop_loss ≤ p) :
    checkExit pos p = some ExitKind.stopLossHit := by
  simp [checkExit, ha, h]

lemma checkExit_sell_target (pos : ActivePosition) (p : ℚ)
    (ha : pos.action = "SELL") (hlt : p < pos.stop_loss) (h : p ≤ pos.target) :
    checkExit pos p = some ExitKind.targetHit := by
  simp [checkExit, ha, h, not_le.mpr hlt]

/-- C3: in the position-status sweep, a Buy position whose fetched close is at
or below its stop loss produces a stop-loss-hit event and is removed from the
active map, and one whose close is at or above its target produces a
target-hit event and is removed; a Sell position behaves mirror-wise.  The
level-ordering hypotheses (stop below target for Buy, above for Sell) hold for
every position the signal generator creates from sane candles and exclude the
degenerate overlap handled separately by the exit-precedence property. -/
theorem position_exit_contract (m : PosMap) (price : String → Option ℚ)
    (s : String) (pos : ActivePosition) (p : ℚ)
    (hmem : (s, pos) ∈ m) (hp : price s = some p) :
    (pos.action = "BUY" → pos.stop_loss < pos.target →
      (p ≤ pos.stop_loss →
        (s, ExitKind.stopLossHit) ∈ (checkPositionStatus m price).2
        ∧ mapLookup (checkPositionStatus m price).1 s = none)
      ∧ (pos.target ≤ p →
        (s, ExitKind.targetHit) ∈ (checkPositionStatus m price).2
        ∧ mapLookup (checkPositionStatus m price).1 s = none))
    ∧ (pos.action = "SELL" → pos.target < pos.stop_loss →
      (pos.stop_loss ≤ p →
        (s, ExitKind.stopLossHit) ∈ (checkPositionStatus m price).2
        ∧ mapLookup (checkPositionStatus m price).1 s = none)
      ∧ (p ≤ pos.target →
        (s, ExitKind.targetHit) ∈ (checkPositionStatus m price).2
        ∧ mapLookup (checkPositionStatus m price).1 s = none)) := by
  constructor
  · intro ha hord
    constructor
    · intro h
      exact checkPS_hit m price s pos p _ hmem hp (checkExit_buy_sl pos p ha h)
    · intro h
      exact checkPS_hit m price s pos p _ hmem hp
        (checkExit_buy_target pos p ha (lt_of_lt_of_le hord h) h)
  · intro ha hord
    constructor
    · intro h
      exact checkPS_hit m price s pos p _ hmem hp (checkExit_sell_sl pos p ha h)
    · intro h
      exact checkPS_hit m price s pos p _ hmem hp
        (checkExit_sell_target pos p ha (lt_of_le_of_lt h hord) h)

/-- A concrete open Buy position used by witnesses. -/
def exPosBuy : ActivePosition :=
  { symbol := "X", entry_order_id := "E1", stop_loss_order_id := "", target_order_id := "",
    action := "BUY", entry_price := 110, stop_loss := 100, target := 130, quantity := 1,
    stop_loss_placed := true, target_placed := true }

/-- A singleton active-position map used by witnesses. -/
def exPosMap : PosMap := [("X", exPosBuy)]

/-- A concrete latest-close feed used by witnesses. -/
def exPriceFeed : String → Option ℚ := fun t => if t = "X" then some 95 else none

/-- Witness for C3: a Buy position with stop 100 and target 130 at fetched
close 95 emits a stop-loss hit and leaves the active map. -/
theorem position_exit_contract_witness :
    ("X", exPosBuy) ∈ exPosMap
    ∧ exPriceFeed "X" = some 95
    ∧ exPosBuy.action = "BUY" ∧ exPosBuy.stop_loss < exPosBuy.target
    ∧ (95 : ℚ) ≤ exPosBuy.stop_loss
    ∧ ("X", ExitKind.stopLossHit) ∈ (checkPositionStatus exPosMap exPriceFeed).2
    ∧ mapLookup (checkPositionStatus exPosMap exPriceFeed).1 "X" = none := by
  have hmem : ("X", exPosBuy) ∈ exPosMap := by simp [exPosMap]
  have hp : exPriceFeed "X" = some 95 := by simp [exPriceFeed]
  have hres := ((position_exit_contract exPosMap exPriceFeed "X" exPosBuy 95 hmem hp).1
    rfl (by norm_num [exPosBuy])).1 (by norm_num [exPosBuy])
  exact ⟨hmem, hp, rfl, by norm_num [exPosBuy], by norm_num [exPosBuy], hres.1, hres.2⟩

/-- C9: the exit decision is an if/else-if cascade, so when the fetched close
satisfies both the stop-loss and the target condition of one position, only
the stop-loss branch fires: the single emitted exit event is a stop-loss hit,
never a target hit. -/
theorem stop_loss_precedence (pos : ActivePosition) (p : ℚ) :
    (pos.action = "BUY" → p ≤ pos.stop_loss → pos.target ≤ p →
      checkExit pos p = some ExitKind.stopLossHit)
    ∧ (pos.action = "SELL" → pos.stop_loss ≤ p → p ≤ pos.target →
      checkExit pos p = some ExitKind.stopLossHit) :=
  ⟨fun ha h _ => checkExit_buy_sl pos p ha h,
   fun ha h _ => checkExit_sell_sl pos p ha h⟩

/-- A degenerate Buy position whose target lies below its stop loss. -/
def exPosDegen : ActivePosition :=
  { symbol := "Y", entry_order_id := "E2", stop_loss_order_id := "", target_order_id := "",
    action := "BUY", entry_price := 70, stop_loss := 100, target := 50, quantity := 1,
    stop_loss_placed := false, target_placed := false }

/-- Witness for C9: at close 70 the degenerate position satisfies both exit
conditions and the evaluation returns the stop-loss hit. -/
theorem stop_loss_precedence_witness :
    exPosDegen.action = "BUY"
    ∧ (70 : ℚ) ≤ exPosDegen.stop_loss ∧ exPosDegen.target ≤ (70 : ℚ)
    ∧ checkExit exPosDegen 70 = some ExitKind.stopLossHit :=
  ⟨rfl, by norm_num [exPosDegen], by norm_num [exPosDegen],
   (stop_loss_precedence exPosDegen 70).1 rfl (by norm_num [exPosDegen])
     (by norm_num [exPosDegen])⟩

/-- C7: when the gateway rejects the entry order (`entryResp = none`), the
order placement returns failure, the active-position map is unchanged (no
position is created), and exactly one entry submission was made — the entry
is not retried within the cycle. -/
theorem gateway_failure_keeps_no_position (m : PosMap) (signal : TradeSignal)
    (slOk tgtOk : Bool) (h : signal.action ≠ "") :
    placeOrder m signal none slOk tgtOk =
      (false, m,
        [{ symbol := signal.symbol, kind := OrderKind.entryOrder,
           transaction :=
             if signal.action = "BUY" ∨ signal.action = "BUY_STOPLOSS"
                ∨ signal.action = "SELL_TARGET"
             then "BUY" else "SELL" }]) := by
  simp [placeOrder, h]

/-- A concrete BUY signal used by witnesses. -/
def exSignalBuy : TradeSignal :=
  { symbol := "X", action := "BUY", entry_price := 10, stop_loss := 9, target := 12,
    quantity := 1 }

/-- Witness for C7: a rejected BUY entry on an empty map leaves the map empty,
reports failure and submits the entry exactly once. -/
theorem gateway_failure_keeps_no_position_witness :
    exSignalBuy.action ≠ ""
    ∧ placeOrder [] exSignalBuy none true true =
      (false, [],
        [{ symbol := "X", kind := OrderKind.entryOrder, transaction := "BUY" }]) := by
  refine ⟨by simp [exSignalBuy], ?_⟩
  have h := gateway_failure_keeps_no_position [] exSignalBuy true true (by simp [exSignalBuy])
  simpa [exSignalBuy] using h

/-- C1: at most one active position per symbol.  Starting from the empty
active-position map, every sequence of trading-loop steps (position-status
sweeps and per-symbol signal/entry processing) keeps the per-symbol entry
count of the map at or below 1; and the per-symbol processing submits an
entry order only when the symbol had no active position at the start of the
step — the has-a-position check precedes every entry submission. -/
theorem position_invariant_per_symbol :
    (∀ (steps : List LoopStep) (s : String), countKey s (runSteps steps) ≤ 1)
    ∧ ∀ (m : PosMap) (symbol : String) (candles : List CandleData) (ema_period : Int)
        (entryResp : Option String) (slOk tgtOk : Bool) (sub : Submission),
        sub ∈ (processSymbol m symbol candles ema_period entryResp slOk tgtOk).2 →
        sub.kind = OrderKind.entryOrder →
        mapLookup m symbol = none := by
  constructor
  · intro steps s
    exact countKey_foldl_applyStep steps [] (fun t => by simp [countKey]) s
  · intro m symbol candles ema_period entryResp slOk tgtOk sub hmem hkind
    cases hl : mapLookup m symbol with
    | none => rfl
    | some pos =>
      rw [processSymbol] at hmem
      simp [hl] at hmem

/-- A 4-candle rising series whose last three candles fire the BUY pattern
for EMA period 3 (closes 2, 4, 7, 11 give EMA 2, 3, 5, 8). -/
def exCandles : List CandleData :=
  [{ timestamp := "09:15", open_ := 2, high := 2, low := 2, close := 2, volume := 10, oi := 0 },
   { timestamp := "09:20", open_ := 3, high := 4, low := 3, close := 4, volume := 10, oi := 0 },
   { timestamp := "09:25", open_ := 5, high := 8, low := 5, close := 7, volume := 10, oi := 0 },
   { timestamp := "09:30", open_ := 9, high := 11, low := 9, close := 11, volume := 10, oi := 0 }]

lemma exCandles_ema : calculateEMA (exCandles.map fun c => c.close) 3 = [2, 3, 5, 8] := by
  norm_num [exCandles, calculateEMA, emaStep]

/-- The last-three window of `exCandles` with its EMA values. -/
def exSnapRising : LastThreeCandles :=
  { last_open := 9, last_high := 11, last_low := 9, last_close := 11, last_ema := 8,
    second_open := 5, second_high := 8, second_low := 5, second_close := 7, second_ema := 5,
    third_open := 3, third_high := 4, third_low := 3, third_close := 4, third_ema := 3 }

lemma exCandles_l3 : getLastThreeCandles exCandles [2, 3, 5, 8] = exSnapRising := by
  rfl

lemma exSnapRising_buyCond : buyCond exSnapRising := by
  norm_num [buyCond, exSnapRising]

/-- The BUY signal produced on `exSnapRising`: entry 11, stop 3, target 27. -/
def exBuySignal : TradeSignal :=
  { symbol := "X", action := "BUY", entry_price := 11, stop_loss := 3, target := 27,
    quantity := 1 }

lemma exAnalyze : analyzeStrategy "X" exSnapRising = exBuySignal := by
  rw [analyzeStrategy, if_pos exSnapRising_buyCond]
  norm_num [exSnapRising, exBuySignal, min_def]

lemma exProcessSubs :
    (processSymbol [] "X" exCandles 3 (some "OID1") true true).2 =
      [{ symbol := "X", kind := OrderKind.entryOrder, transaction := "BUY" },
       { symbol := "X", kind := OrderKind.stopLossOrder, transaction := "SELL" },
       { symbol := "X", kind := OrderKind.targetOrder, transaction := "SELL" }] := by
  have hlen : (3 : ℕ) ≤ exCandles.length := by norm_num [exCandles]
  simp [processSymbol, mapLookup, hlen, exCandles_ema, exCandles_l3, exAnalyze,
    exBuySignal, placeOrder]

/-- Witness for C1: on the empty map, processing symbol "X" over `exCandles`
submits an entry order, and indeed the map held no position for "X". -/
theorem position_invariant_per_symbol_witness :
    ({ symbol := "X", kind := OrderKind.entryOrder, transaction := "BUY" } : Submission) ∈
      (processSymbol [] "X" exCandles 3 (some "OID1") true true).2
    ∧ mapLookup ([] : PosMap) "X" = none := by
  have hmem : ({ symbol := "X", kind := OrderKind.entryOrder, transaction := "BUY" } : Submission) ∈
      (processSymbol [] "X" exCandles 3 (some "OID1") true true).2 := by
    rw [exProcessSubs]
    exact List.mem_cons_self _ _
  exact ⟨hmem,
    position_invariant_per_symbol.2 [] "X" exCandles 3 (some "OID1") true true _ hmem rfl⟩

lemma getLastThree_short (candles : List CandleData) (ema : List ℚ)
    (h : candles.length < 3 ∨ ema.length < 3) :
    getLastThreeCandles candles ema = zeroSnapshot := by
  rw [getLastThreeCandles, if_neg]
  omega

lemma analyze_zero_empty (sym : String) : analyzeStrategy sym zeroSnapshot =
    { symbol := sym, action := "", entry_price := 0, stop_loss := 0, target := 0,
      quantity := 1 } := by
  have hb : ¬ buyCond zeroSnapshot := by norm_num [buyCond, zeroSnapshot]
  have hs : ¬ sellCond zeroSnapshot := by norm_num [sellCond, zeroSnapshot]
  simp [analyzeStrategy, hb, hs]

/-- C10: with fewer than 3 aligned candle/EMA points the window view returns
the default snapshot whose fields are all 0; the strategy on that all-zero
snapshot returns the empty action (its strict inequalities on 0 are false);
hence the per-symbol processing submits no order whenever fewer than 3
aligned points are available. -/
theorem insufficient_data_safety :
    (∀ (candles : List CandleData) (ema : List ℚ),
        candles.length < 3 ∨ ema.length < 3 →
        getLastThreeCandles candles ema = zeroSnapshot)
    ∧ zeroSnapshot =
        { last_open := 0, last_high := 0, last_low := 0, last_close := 0, last_ema := 0,
          second_open := 0, second_high := 0, second_low := 0, second_close := 0,
          second_ema := 0, third_open := 0, third_high := 0, third_low := 0,
          third_close := 0, third_ema := 0 }
    ∧ (∀ sym : String, (analyzeStrategy sym zeroSnapshot).action = "")
    ∧ ∀ (m : PosMap) (sym : String) (candles : List CandleData) (ema_period : Int)
        (entryResp : Option String) (slOk tgtOk : Bool),
        candles.length < 3
          ∨ (calculateEMA (candles.map fun c => c.close) ema_period).length < 3 →
        (processSymbol m sym candles ema_period entryResp slOk tgtOk).2 = [] := by
  refine ⟨getLastThree_short, rfl, ?_, ?_⟩
  · intro sym
    rw [analyze_zero_empty]
  · intro m sym candles ema_period entryResp slOk tgtOk h
    rw [processSymbol]
    by_cases h1 : (mapLookup m sym).isSome
    · simp [h1]
    · by_cases h2 : 3 ≤ candles.length
      · have h3 : (calculateEMA (candles.map fun c => c.close) ema_period).length < 3 := by
          rcases h with h | h
          · omega
          · exact h
        have h4 : getLastThreeCandles candles
            (calculateEMA (candles.map fun c => c.close) ema_period) = zeroSnapshot :=
          getLastThree_short _ _ (Or.inr h3)
        simp [h1, h2, h4, analyze_zero_empty]
      · simp [h1, h2]

/-- Witness for C10: empty inputs give the all-zero snapshot and no order
submissions. -/
theorem insufficient_data_safety_witness :
    getLastThreeCandles [] [] = zeroSnapshot
    ∧ (processSymbol [] "X" [] 20 (some "OID2") true true).2 = [] :=
  ⟨insufficient_data_safety.1 [] [] (Or.inl (by norm_num)),
   insufficient_data_safety.2.2.2 [] "X" [] 20 (some "OID2") true true
     (Or.inl (by norm_num))⟩
